import Mathlib

/-!
Shallow embedding of the core of a small JavaScript ray tracer
(vector math, ray/primitive intersection, scene query, lighting,
materials, per-pixel sampler), together with theorems settling a set of
claims about it.  JavaScript numbers are modelled as real numbers; a
JavaScript function that can throw (for example by reading a property of
an undefined value) is modelled as returning an Option, with none for
the thrown case.
-/

noncomputable section

namespace Raytracer

/-- Embeds the Vector3 class of vector.js: three numeric components. -/
structure Vector3 where
  x : ℝ
  y : ℝ
  z : ℝ

/-- Embeds Vector3.dot from vector.js. -/
def Vector3.dot (a b : Vector3) : ℝ :=
  a.x * b.x + a.y * b.y + a.z * b.z

/-- Embeds the static Vector3.subtract from vector.js. -/
def Vector3.subtract (a b : Vector3) : Vector3 :=
  ⟨a.x - b.x, a.y - b.y, a.z - b.z⟩

/-- Embeds the static Vector3.add from vector.js. -/
def Vector3.add (a b : Vector3) : Vector3 :=
  ⟨a.x + b.x, a.y + b.y, a.z + b.z⟩

/-- Embeds the static Vector3.scale from vector.js. -/
def Vector3.scale (v : Vector3) (factor : ℝ) : Vector3 :=
  ⟨v.x * factor, v.y * factor, v.z * factor⟩

/-- Embeds the static Vector3.componentScale from vector.js. -/
def Vector3.componentScale (v factor : Vector3) : Vector3 :=
  ⟨v.x * factor.x, v.y * factor.y, v.z * factor.z⟩

/-- Embeds the static Vector3.addMul from vector.js: a + b * factor. -/
def Vector3.addMul (a b : Vector3) (factor : ℝ) : Vector3 :=
  ⟨a.x + b.x * factor, a.y + b.y * factor, a.z + b.z * factor⟩

/-- Embeds Vector3.negate from vector.js. -/
def Vector3.negate (v : Vector3) : Vector3 :=
  ⟨-v.x, -v.y, -v.z⟩

/-- Embeds Vector3.prototype.length from vector.js. -/
def Vector3.length (v : Vector3) : ℝ :=
  Real.sqrt (v.x * v.x + v.y * v.y + v.z * v.z)

/-- Embeds Vector3.prototype.normalize from vector.js: divides each
component by the length when the length exceeds 1e-4, and otherwise
leaves the vector unchanged. -/
def Vector3.normalize (v : Vector3) : Vector3 :=
  if v.length > 1e-4 then ⟨v.x / v.length, v.y / v.length, v.z / v.length⟩ else v

/-- Embeds the static Vector3.reflect from vector.js:
v - n * (2 * dot v n). -/
def Vector3.reflect (v n : Vector3) : Vector3 :=
  Vector3.subtract v (Vector3.scale n (Vector3.dot v n * 2))

/-- Embeds the Vector2 class of vector.js (used for sample offsets). -/
structure Vector2 where
  x : ℝ
  y : ℝ

/-- Embeds the Ray class of ray.js: an origin and a direction. -/
structure Ray where
  origin : Vector3
  direction : Vector3

/-- Embeds Ray.prototype.pointOnRay: origin + direction * t. -/
def Ray.pointOnRay (r : Ray) (t : ℝ) : Vector3 :=
  Vector3.addMul r.origin r.direction t

/-- Embeds the hit record {t, normal} returned by the primitive
intersect methods. -/
structure Hit where
  t : ℝ
  normal : Vector3

/-- Embeds the geometric data of the Sphere primitive.  The material
field of the JavaScript constructor is used only by shade, which is not
involved in the intersection claims, so it is not carried here. -/
structure Sphere where
  center : Vector3
  radius : ℝ

/-- Embeds Sphere.prototype.normal: normalize(pointOnRay t - center). -/
def Sphere.normal (s : Sphere) (ray : Ray) (t : ℝ) : Vector3 :=
  (Vector3.subtract (ray.pointOnRay t) s.center).normalize

/-- Embeds Sphere.prototype.intersect: solve the quadratic
a t^2 + b t + c = 0 with a = D.D, b = 2 D.(O-C), c = (O-C).(O-C) - r^2;
negative discriminant means no hit, a discriminant of absolute value at
most 1e-2 gives the single root -b/(2a), and otherwise the smaller root
(-b - sqrt disc)/(2a) is returned with the sphere normal at that point. -/
def Sphere.intersect (s : Sphere) (ray : Ray) : Option Hit :=
  let dst := Vector3.subtract ray.origin s.center
  let a := Vector3.dot ray.direction ray.direction
  let b := 2 * Vector3.dot ray.direction dst
  let c := Vector3.dot dst dst - s.radius * s.radius
  let discrim_sq := b * b - 4 * a * c
  if discrim_sq < 0 then
    none
  else
    let discrim := Real.sqrt discrim_sq
    let t := if |discrim_sq| > 1e-2 then (-b - discrim) / (2 * a) else -b / (2 * a)
    some { t := t, normal := s.normal ray t }

/-- Embeds the geometric data of the Plane primitive: a normal and a
signed offset along it.  As with Sphere, the material field is not
needed by the intersection claims. -/
structure Plane where
  normal : Vector3
  offset : ℝ

/-- Embeds Plane.prototype.intersect: Vd = n.D; reject |Vd| < 1e-2 as
parallel; t = V0 / Vd with V0 = -(n.O - offset); reject t < 0; otherwise
return t with the fixed plane normal. -/
def Plane.intersect (p : Plane) (ray : Ray) : Option Hit :=
  let Vd := Vector3.dot p.normal ray.direction
  if |Vd| < 1e-2 then
    none
  else
    let V0 := -(Vector3.dot p.normal ray.origin - p.offset)
    let t := V0 / Vd
    if t < 0 then
      none
    else
      some { t := t, normal := p.normal }

/-- Embeds the geometric data of the Box primitive: the two opposite
corners computed by the constructor from width, height, depth and
center. -/
structure Box where
  p0 : Vector3
  p1 : Vector3

/-- Embeds the Box constructor: the corners are the center minus and
plus half the extents. -/
def Box.make (width height depth : ℝ) (center : Vector3) : Box :=
  { p0 := Vector3.subtract center ⟨width / 2, height / 2, depth / 2⟩
    p1 := Vector3.add center ⟨width / 2, height / 2, depth / 2⟩ }

/-- Embeds the static Box.sign helper: 0 for |x| < 1e-5, otherwise the
sign of x. -/
def Box.sign (x : ℝ) : ℝ :=
  if |x| < 1e-5 then 0 else if x < 0 then -1 else 1

/-- Embeds Box.prototype.intersect: the slab method, tracking the normal
of the face that produced the largest entry value, and hitting exactly
when the largest entry value is below the smallest exit value. -/
def Box.intersect (b : Box) (ray : Ray) : Option Hit :=
  let txMin := if ray.direction.x ≥ 0 then (b.p0.x - ray.origin.x) / ray.direction.x
               else (b.p1.x - ray.origin.x) / ray.direction.x
  let txMax := if ray.direction.x ≥ 0 then (b.p1.x - ray.origin.x) / ray.direction.x
               else (b.p0.x - ray.origin.x) / ray.direction.x
  let tyMin := if ray.direction.y ≥ 0 then (b.p0.y - ray.origin.y) / ray.direction.y
               else (b.p1.y - ray.origin.y) / ray.direction.y
  let tyMax := if ray.direction.y ≥ 0 then (b.p1.y - ray.origin.y) / ray.direction.y
               else (b.p0.y - ray.origin.y) / ray.direction.y
  let tzMin := if ray.direction.z ≥ 0 then (b.p0.z - ray.origin.z) / ray.direction.z
               else (b.p1.z - ray.origin.z) / ray.direction.z
  let tzMax := if ray.direction.z ≥ 0 then (b.p1.z - ray.origin.z) / ray.direction.z
               else (b.p0.z - ray.origin.z) / ray.direction.z
  let s1 := (txMin, Vector3.mk (-Box.sign ray.direction.x) 0 0)
  let s2 := if s1.1 < tyMin then (tyMin, Vector3.mk 0 (-Box.sign ray.direction.y) 0) else s1
  let s3 := if s2.1 < tzMin then (tzMin, Vector3.mk 0 0 (-Box.sign ray.direction.z)) else s2
  let t1 := min txMax (min tyMax tzMax)
  if s3.1 < t1 then
    some { t := s3.1, normal := s3.2 }
  else
    none

/-- Embeds the closed set of scene primitives stored in g_objects. -/
inductive SceneObject where
  | sphere (s : Sphere)
  | plane (p : Plane)
  | box (b : Box)

/-- Dispatches the per-primitive intersect method, as the dynamic
dispatch on the JavaScript prototype chain does. -/
def SceneObject.intersect (o : SceneObject) (ray : Ray) : Option Hit :=
  match o with
  | .sphere s => s.intersect ray
  | .plane p => p.intersect ray
  | .box b => b.intersect ray

/-- Embeds the record {t, normal, obj} returned by
intersectRayWithScene. -/
structure SceneResult where
  t : ℝ
  normal : Vector3
  obj : SceneObject

/-- Embeds one iteration of the loop body of intersectRayWithScene: if
the object intersects the ray strictly closer than the best hit so far
(every hit beats the initial closest_t of Infinity), it becomes the
best hit. -/
def sceneStep (ray : Ray) (acc : Option (SceneObject × Hit)) (o : SceneObject) :
    Option (SceneObject × Hit) :=
  match o.intersect ray with
  | none => acc
  | some h =>
    match acc with
    | none => some (o, h)
    | some (o0, h0) => if h.t < h0.t then some (o, h) else some (o0, h0)

/-- Embeds intersectRayWithScene: scan the object list keeping the hit
with the smallest t seen (closest_t starts at Infinity, modelled by the
none accumulator), and return undefined (none) when nothing was hit. -/
def intersectRayWithScene (objs : List SceneObject) (ray : Ray) : Option SceneResult :=
  (objs.foldl (sceneStep ray) none).map fun p => ⟨p.2.t, p.2.normal, p.1⟩

/-- Embeds the Irradiance record of lights.js.  The JavaScript boolean
lightVisible is modelled as a proposition, since it is computed by a
comparison of real numbers. -/
structure Irradiance where
  direction : Vector3
  color : Vector3
  lightVisible : Prop

/-- Embeds the DirectionalLight class of lights.js. -/
structure DirectionalLight where
  direction : Vector3
  color : Vector3

/-- Embeds the constant DirectionalLight.LIGHT_STEP_SIZE_ = 10000. -/
def LIGHT_STEP_SIZE : ℝ := 10000

/-- Embeds the shadow ray built inside evaluateLight: it starts at
pos + direction * (-LIGHT_STEP_SIZE) and points along the light
direction. -/
def DirectionalLight.shadowRay (L : DirectionalLight) (pos : Vector3) : Ray :=
  ⟨Vector3.addMul pos L.direction (-LIGHT_STEP_SIZE), L.direction⟩

/-- Embeds DirectionalLight.prototype.evaluateLight.  The JavaScript
code reads shadowTest.t directly on the result of
intersectRayWithScene; when that result is undefined (the shadow ray
hit nothing) the property read throws a TypeError, modelled here by
none.  The normal argument is accepted but unused, as in the source. -/
def DirectionalLight.evaluateLight (objs : List SceneObject) (L : DirectionalLight)
    (pos _normal : Vector3) : Option Irradiance :=
  match intersectRayWithScene objs (L.shadowRay pos) with
  | none => none
  | some shadowTest =>
      some ⟨L.direction, L.color, |shadowTest.t - LIGHT_STEP_SIZE| < 1e-2⟩

/-- Embeds Lights.prototype.forEachLight together with the accumulating
closure that a material passes to it: lights are visited in
registration order, each is evaluated at the given point, and the
closure folds every irradiance into the accumulator.  A light
evaluation that throws aborts the whole iteration. -/
def forEachLight {α : Type} (objs : List SceneObject) (lights : List DirectionalLight)
    (pos normal : Vector3) (closure : α → Irradiance → α) (init : α) : Option α :=
  lights.foldlM (fun acc L => (L.evaluateLight objs pos normal).map (closure acc)) init

/-- Embeds the ShadeContext record built by the renderer before calling
Material.evaluate.  The object field is not read by any material, so it
is not carried here. -/
structure ShadeContext where
  ray : Ray
  t : ℝ
  normal : Vector3

/-- Embeds the DiffuseMaterial class of materials.js: a diffuse color
and an ambient color. -/
structure DiffuseMaterial where
  color : Vector3
  ambientColor : Vector3

open Classical in
/-- Embeds DiffuseMaterial.prototype.evaluateRadiance_: when the light
is visible, scale the light color by the clamped Lambert term
max(-(normal . lightDirection), 0) and then component-scale by the
material color; otherwise black. -/
def DiffuseMaterial.evaluateRadiance (m : DiffuseMaterial) (irr : Irradiance)
    (_pos normal : Vector3) : Vector3 :=
  if irr.lightVisible then
    Vector3.componentScale
      (Vector3.scale irr.color (max (-(Vector3.dot normal irr.direction)) 0)) m.color
  else
    ⟨0, 0, 0⟩

/-- Embeds DiffuseMaterial.prototype.evaluate: fold the per-light
radiance over all lights starting from black, then add the constant
ambient term ambientColor component-scaled by the material color. -/
def DiffuseMaterial.evaluate (objs : List SceneObject) (lights : List DirectionalLight)
    (m : DiffuseMaterial) (ctx : ShadeContext) : Option Vector3 := do
  let worldPos := ctx.ray.pointOnRay ctx.t
  let color ← forEachLight objs lights worldPos ctx.normal
      (fun acc irr => Vector3.add acc (m.evaluateRadiance irr worldPos ctx.normal)) ⟨0, 0, 0⟩
  pure (Vector3.add color (Vector3.componentScale m.ambientColor m.color))

/-- Embeds the SpecularMaterial class of materials.js: a specular
color, a Phong exponent, and the wrapped diffuse material. -/
structure SpecularMaterial where
  specularColor : Vector3
  specularPower : ℝ
  diffuseMaterial : DiffuseMaterial

/-- Embeds SpecularMaterial.prototype.evaluateRadiance_: reflect the
ray direction around the normal and raise the clamped alignment with
the light direction to the Phong exponent, scaling the light color. -/
def SpecularMaterial.evaluateRadiance (m : SpecularMaterial) (irr : Irradiance)
    (_pos normal : Vector3) (ctx : ShadeContext) : Vector3 :=
  let r := Vector3.reflect ctx.ray.direction normal
  Vector3.scale irr.color ((max (-(Vector3.dot r irr.direction)) 0) ^ m.specularPower)

/-- Embeds SpecularMaterial.prototype.evaluate: one pass over the
lights accumulating the wrapped diffuse per-light radiance and the
specular per-light radiance separately, returning their sum.  No
ambient term is added anywhere in this function. -/
def SpecularMaterial.evaluate (objs : List SceneObject) (lights : List DirectionalLight)
    (m : SpecularMaterial) (ctx : ShadeContext) : Option Vector3 := do
  let worldPos := ctx.ray.pointOnRay ctx.t
  let colors ← forEachLight objs lights worldPos ctx.normal
      (fun (acc : Vector3 × Vector3) irr =>
        (Vector3.add acc.1 (m.diffuseMaterial.evaluateRadiance irr worldPos ctx.normal),
         Vector3.add acc.2 (m.evaluateRadiance irr worldPos ctx.normal ctx)))
      (⟨0, 0, 0⟩, ⟨0, 0, 0⟩)
  pure (Vector3.add colors.1 colors.2)

/-- Models the heap of mutable JavaScript Vector3 objects used by the
sampler: a cell is addressed by a natural number and the store maps
addresses to current values.  This makes reference sharing (aliasing)
of the accumulator observable in the embedding. -/
def Store : Type := ℕ → Vector3

/-- Writes one heap cell, as a JavaScript in-place mutation does. -/
def Store.write (st : Store) (addr : ℕ) (v : Vector3) : Store :=
  Function.update st addr v

/-- Embeds the Sampler class of sampler.js.  The colorAccumulator field
holds a reference (heap address) to the mutable accumulator Vector3,
and sampleWeight is none until the first next call sets it, mirroring
the field being undefined after construction. -/
structure Sampler where
  numSamples : ℕ
  remainingSamples : ℕ
  sampleWeight : Option ℝ
  colorAccumulator : ℕ

/-- Embeds the Sampler constructor: remaining = numSamples and a fresh
accumulator cell initialised to (0,0,0) at the given address. -/
def Sampler.make (numSamples addr : ℕ) (st : Store) : Sampler × Store :=
  (⟨numSamples, numSamples, none, addr⟩, st.write addr ⟨0, 0, 0⟩)

/-- Embeds Sampler.prototype.hasNext: remaining > 0. -/
def Sampler.hasNext (s : Sampler) : Bool :=
  decide (0 < s.remainingSamples)

/-- Embeds Sampler.prototype.next: undefined once remaining is 0;
otherwise decrement remaining, fix the sample weight to 1/numSamples,
and return the offset (0,0). -/
def Sampler.next (s : Sampler) : Option Vector2 × Sampler :=
  if s.remainingSamples ≤ 0 then (none, s)
  else (some ⟨0, 0⟩,
        { s with remainingSamples := s.remainingSamples - 1,
                 sampleWeight := some (1 / (s.numSamples : ℝ)) })

/-- Embeds Sampler.prototype.reset: restore remaining to numSamples and
set the accumulator cell (the same heap object) back to (0,0,0). -/
def Sampler.reset (s : Sampler) (st : Store) : Sampler × Store :=
  ({ s with remainingSamples := s.numSamples }, st.write s.colorAccumulator ⟨0, 0, 0⟩)

/-- Embeds Sampler.prototype.accumulateSample: add color * sampleWeight
into the accumulator cell in place.  When sampleWeight is still
undefined the JavaScript arithmetic poisons the accumulator with NaN,
which has no real-number counterpart; that case is modelled as none. -/
def Sampler.accumulateSample (s : Sampler) (color : Vector3) (st : Store) : Option Store :=
  s.sampleWeight.map fun w =>
    st.write s.colorAccumulator (Vector3.addMul (st s.colorAccumulator) color w)

/-- Embeds Sampler.prototype.result: it returns the accumulator object
itself, that is the reference, not a copy of its value. -/
def Sampler.result (s : Sampler) : ℕ :=
  s.colorAccumulator

/-- Runs k calls of next in sequence, discarding the returned offsets,
to express claims about the k-th call. -/
def iterateNext : ℕ → Sampler → Sampler
  | 0, s => s
  | k + 1, s => iterateNext k (s.next).2

/-- Embeds the per-pixel sampling loop of the renderer specialised to a
constant sample color: k rounds of next followed by accumulateSample. -/
def samplePass : ℕ → Vector3 → Sampler → Store → Option (Sampler × Store)
  | 0, _, s, st => some (s, st)
  | k + 1, color, s, st =>
    let stepped := (s.next).2
    match stepped.accumulateSample color st with
    | none => none
    | some st2 => samplePass k color stepped st2

/-- Spec-side helper: the list of irradiances the lights deliver to a
point, in registration order; none when some light evaluation throws. -/
def collectIrradiances (objs : List SceneObject) (pos normal : Vector3) :
    List DirectionalLight → Option (List Irradiance)
  | [] => some []
  | L :: ls =>
    match L.evaluateLight objs pos normal with
    | none => none
    | some irr =>
      match collectIrradiances objs pos normal ls with
      | none => none
      | some irrs => some (irr :: irrs)

/-- Spec-side helper: the sum of a per-irradiance color over a list of
irradiances, starting from black. -/
def sumColors (f : Irradiance → Vector3) (irrs : List Irradiance) : Vector3 :=
  irrs.foldl (fun acc irr => Vector3.add acc (f irr)) ⟨0, 0, 0⟩

/-- Test fixture from the spec test vectors: the sphere centered at
(0,0,10) with radius 5. -/
def sphereMain : Sphere := ⟨⟨0, 0, 10⟩, 5⟩

/-- Test fixture from the spec test vectors: the ray from (0,0,-20)
along the positive z axis. -/
def rayFromBehind : Ray := ⟨⟨0, 0, -20⟩, ⟨0, 0, 1⟩⟩

/-- Test fixture: the ray from the world origin along the positive z
axis. -/
def rayPlusZ : Ray := ⟨⟨0, 0, 0⟩, ⟨0, 0, 1⟩⟩

/-- Test fixture: a unit sphere behind the origin of rayPlusZ. -/
def sphereBehind : Sphere := ⟨⟨0, 0, -10⟩, 1⟩

/-- Test fixture: a sphere offset upward that rayPlusZ enters at
t = 6. -/
def sphereUp : Sphere := ⟨⟨0, 3, 10⟩, 5⟩

/-- Test fixture: the mirror image of sphereUp, also entered at t = 6
but with a different surface normal there. -/
def sphereDown : Sphere := ⟨⟨0, -3, 10⟩, 5⟩

/-- Test fixture from the spec test vectors: the plane with normal
(0,1,0) and offset -4. -/
def planeFloor : Plane := ⟨⟨0, 1, 0⟩, -4⟩

/-- Test fixture from the spec test vectors: the ray from (0,10,0)
straight down. -/
def rayDown : Ray := ⟨⟨0, 10, 0⟩, ⟨0, -1, 0⟩⟩

/-- Test fixture mirroring initScene: the white directional light
shining straight down. -/
def lightDown : DirectionalLight := ⟨⟨0, -1, 0⟩, ⟨1, 1, 1⟩⟩

/-- Test fixture: a specular material whose wrapped diffuse material
has color (1,1,1) and ambient color (1,1,1), so the ambient term is the
nonzero vector (1,1,1). -/
def specMat : SpecularMaterial := ⟨⟨1, 1, 1⟩, 8, ⟨⟨1, 1, 1⟩, ⟨1, 1, 1⟩⟩⟩

/-- Test fixture: a shade context on rayPlusZ at t = 1 with normal
(0,1,0). -/
def ctxMain : ShadeContext := ⟨rayPlusZ, 1, ⟨0, 1, 0⟩⟩

/-- Test fixture: a store whose cells all hold (1,2,3). -/
def storeInit : Store := fun _ => ⟨1, 2, 3⟩

/-- Test fixture: a freshly constructed two-sample sampler whose
accumulator lives at address 0. -/
def samplerTwo : Sampler := ⟨2, 2, none, 0⟩

/-- Helper: concrete evaluation of the spec test vector; the near hit
is at t = 25, where the ray at z = -20 reaches the sphere surface at
z = 5. -/
lemma sphereMain_eval :
    sphereMain.intersect rayFromBehind = some ⟨25, ⟨0, 0, -1⟩⟩ := by
  unfold sphereMain rayFromBehind Sphere.intersect
  simp only [Vector3.dot, Vector3.subtract]
  norm_num
  rw [show ((100:ℝ)) = 10 ^ 2 by norm_num, Real.sqrt_sq (by norm_num : (0:ℝ) ≤ 10)]
  norm_num
  simp only [Sphere.normal, Ray.pointOnRay, Vector3.addMul, Vector3.subtract,
    Vector3.normalize, Vector3.length]
  norm_num
  rw [show ((25:ℝ)) = 5 ^ 2 by norm_num, Real.sqrt_sq (by norm_num : (0:ℝ) ≤ 5)]
  norm_num

/-- Helper: a sphere strictly behind the ray origin still produces a
hit, with the negative parameter t = -11. -/
lemma sphereBehind_eval :
    sphereBehind.intersect rayPlusZ = some ⟨-11, ⟨0, 0, -1⟩⟩ := by
  unfold sphereBehind rayPlusZ Sphere.intersect
  simp only [Vector3.dot, Vector3.subtract]
  norm_num
  rw [show ((4:ℝ)) = 2 ^ 2 by norm_num, Real.sqrt_sq (by norm_num : (0:ℝ) ≤ 2)]
  norm_num
  simp only [Sphere.normal, Ray.pointOnRay, Vector3.addMul, Vector3.subtract,
    Vector3.normalize, Vector3.length]
  norm_num

/-- Helper: concrete evaluation of the upper of the two overlapping
spheres: entered at t = 6 with normal (0,-3/5,-4/5). -/
lemma sphereUp_eval :
    sphereUp.intersect rayPlusZ = some ⟨6, ⟨0, -(3/5), -(4/5)⟩⟩ := by
  unfold sphereUp rayPlusZ Sphere.intersect
  simp only [Vector3.dot, Vector3.subtract]
  norm_num
  rw [show ((64:ℝ)) = 8 ^ 2 by norm_num, Real.sqrt_sq (by norm_num : (0:ℝ) ≤ 8)]
  norm_num
  simp only [Sphere.normal, Ray.pointOnRay, Vector3.addMul, Vector3.subtract,
    Vector3.normalize, Vector3.length]
  norm_num
  rw [show ((25:ℝ)) = 5 ^ 2 by norm_num, Real.sqrt_sq (by norm_num : (0:ℝ) ≤ 5)]
  norm_num

/-- Helper: concrete evaluation of the lower of the two overlapping
spheres: also entered at t = 6 but with normal (0,3/5,-4/5). -/
lemma sphereDown_eval :
    sphereDown.intersect rayPlusZ = some ⟨6, ⟨0, 3/5, -(4/5)⟩⟩ := by
  unfold sphereDown rayPlusZ Sphere.intersect
  simp only [Vector3.dot, Vector3.subtract]
  norm_num
  rw [show ((64:ℝ)) = 8 ^ 2 by norm_num, Real.sqrt_sq (by norm_num : (0:ℝ) ≤ 8)]
  norm_num
  simp only [Sphere.normal, Ray.pointOnRay, Vector3.addMul, Vector3.subtract,
    Vector3.normalize, Vector3.length]
  norm_num
  rw [show ((25:ℝ)) = 5 ^ 2 by norm_num, Real.sqrt_sq (by norm_num : (0:ℝ) ≤ 5)]
  norm_num

/-- Helper: concrete evaluation of the spec plane test vector. -/
lemma planeFloor_eval :
    planeFloor.intersect rayDown = some ⟨14, ⟨0, 1, 0⟩⟩ := by
  unfold planeFloor rayDown Plane.intersect
  simp only [Vector3.dot]
  norm_num

/-- Claim C5: for every ray and sphere, Sphere.intersect solves the
quadratic with a = D.D, b = 2 D.(O-C), c = (O-C).(O-C) - r^2 and
returns no hit when the discriminant is negative, the single root
-b/(2a) when the absolute discriminant is at most 1e-2, and otherwise
the smaller root (-b - sqrt disc)/(2a), discarding the far root; the
returned normal equals normalize(hitPoint - center). -/
theorem sphere_intersect_quadratic (s : Sphere) (ray : Ray) (a b c disc : ℝ)
    (ha : a = Vector3.dot ray.direction ray.direction)
    (hb : b = 2 * Vector3.dot ray.direction (Vector3.subtract ray.origin s.center))
    (hc : c = Vector3.dot (Vector3.subtract ray.origin s.center)
                (Vector3.subtract ray.origin s.center) - s.radius * s.radius)
    (hd : disc = b * b - 4 * a * c) :
    (disc < 0 → s.intersect ray = none) ∧
    (0 ≤ disc → |disc| ≤ 1e-2 →
      s.intersect ray = some ⟨-b / (2 * a), s.normal ray (-b / (2 * a))⟩) ∧
    (1e-2 < |disc| → 0 ≤ disc →
      s.intersect ray = some ⟨(-b - Real.sqrt disc) / (2 * a),
        s.normal ray ((-b - Real.sqrt disc) / (2 * a))⟩) ∧
    (∀ h, s.intersect ray = some h →
      h.normal = (Vector3.subtract (ray.pointOnRay h.t) s.center).normalize) := by
  subst ha hb hc hd
  refine ⟨fun hneg => ?_, fun hpos habs => ?_, fun habs hpos => ?_, fun h hh => ?_⟩
  · unfold Sphere.intersect
    rw [if_pos hneg]
  · unfold Sphere.intersect
    dsimp only
    rw [if_neg (not_lt.mpr hpos), if_neg (not_lt.mpr habs)]
  · unfold Sphere.intersect
    dsimp only
    rw [if_neg (not_lt.mpr hpos), if_pos habs]
  · unfold Sphere.intersect at hh
    by_cases h1 : (2 * Vector3.dot ray.direction (Vector3.subtract ray.origin s.center)) *
        (2 * Vector3.dot ray.direction (Vector3.subtract ray.origin s.center)) -
        4 * Vector3.dot ray.direction ray.direction *
          (Vector3.dot (Vector3.subtract ray.origin s.center)
            (Vector3.subtract ray.origin s.center) - s.radius * s.radius) < 0
    · rw [if_pos h1] at hh
      exact absurd hh (by simp)
    · rw [if_neg h1] at hh
      dsimp only at hh
      injection hh with h2
      rw [← h2]
      unfold Sphere.normal
      rfl

/-- Witness for sphere_intersect_quadratic: the spec test sphere and
ray fall in the two-root case with discriminant 100, and the theorem
instantiates there. -/
theorem sphere_intersect_quadratic_witness :
    sphereMain.intersect rayFromBehind =
      some ⟨(-(-60) - Real.sqrt 100) / (2 * 1),
        sphereMain.normal rayFromBehind ((-(-60) - Real.sqrt 100) / (2 * 1))⟩ :=
  (sphere_intersect_quadratic sphereMain rayFromBehind 1 (-60) 875 100
    (by norm_num [Vector3.dot, rayFromBehind])
    (by norm_num [Vector3.dot, Vector3.subtract, rayFromBehind, sphereMain])
    (by norm_num [Vector3.dot, Vector3.subtract, rayFromBehind, sphereMain])
    (by norm_num)).2.2.1 (by norm_num) (by norm_num)

/-- Claim C4, counterexample: for the ray from (0,0,-20) along +z and
the sphere centered at (0,0,10) with radius 5, the near hit is at
t = 25 (the entry point z = 5 lies 25 units from the origin z = -20),
which is not within 1e-3 of the claimed t = 5. -/
theorem sphere_entry_hit_not_t5 :
    sphereMain.intersect rayFromBehind = some ⟨25, ⟨0, 0, -1⟩⟩ ∧
    ¬ |(25:ℝ) - 5| < 1e-3 :=
  ⟨sphereMain_eval, by norm_num⟩

/-- Claim C4, amended: for the ray with origin (0,0,-20) and direction
(0,0,1) against the sphere centered at (0,0,10) with radius 5,
Sphere.intersect reports the near (entry) hit at t = 25, exact to
within 1e-3. -/
theorem sphere_entry_hit_t25 :
    sphereMain.intersect rayFromBehind = some ⟨25, ⟨0, 0, -1⟩⟩ ∧
    |(25:ℝ) - 25| < 1e-3 :=
  ⟨sphereMain_eval, by norm_num⟩

/-- Claim C7: for every ray and plane, Plane.intersect returns no hit
when |n.D| < 1e-2 (parallel) or when t = V0/denom with
V0 = -(n.O - offset) is negative, and otherwise returns that t with
the fixed plane normal; in particular the ray from (0,10,0) straight
down against the plane with normal (0,1,0) and offset -4 yields t = 14
with normal (0,1,0). -/
theorem plane_intersect_characterization (p : Plane) (ray : Ray) (Vd V0 : ℝ)
    (hVd : Vd = Vector3.dot p.normal ray.direction)
    (hV0 : V0 = -(Vector3.dot p.normal ray.origin - p.offset)) :
    ((|Vd| < 1e-2 → p.intersect ray = none) ∧
     (1e-2 ≤ |Vd| → V0 / Vd < 0 → p.intersect ray = none) ∧
     (1e-2 ≤ |Vd| → 0 ≤ V0 / Vd → p.intersect ray = some ⟨V0 / Vd, p.normal⟩)) ∧
    planeFloor.intersect rayDown = some ⟨14, ⟨0, 1, 0⟩⟩ := by
  subst hVd hV0
  refine ⟨⟨fun hpar => ?_, fun hnp hneg => ?_, fun hnp hpos => ?_⟩, planeFloor_eval⟩
  · unfold Plane.intersect
    rw [if_pos hpar]
  · unfold Plane.intersect
    dsimp only
    rw [if_neg (not_lt.mpr hnp), if_pos hneg]
  · unfold Plane.intersect
    dsimp only
    rw [if_neg (not_lt.mpr hnp), if_neg (not_lt.mpr hpos)]

/-- Witness for plane_intersect_characterization: a ray running inside
the plane direction (denominator 0) is reported as no hit. -/
theorem plane_intersect_characterization_witness :
    planeFloor.intersect ⟨⟨0, 0, 0⟩, ⟨1, 0, 0⟩⟩ = none :=
  ((plane_intersect_characterization planeFloor ⟨⟨0, 0, 0⟩, ⟨1, 0, 0⟩⟩ 0 (-4)
    (by norm_num [Vector3.dot, planeFloor])
    (by norm_num [Vector3.dot, planeFloor])).1).1 (by norm_num)

/-- Helper: the loop body of intersectRayWithScene yields no best hit
exactly when there was none before and the object misses the ray. -/
lemma sceneStep_eq_none_iff (ray : Ray) (acc : Option (SceneObject × Hit)) (o : SceneObject) :
    sceneStep ray acc o = none ↔ acc = none ∧ o.intersect ray = none := by
  unfold sceneStep
  cases h : o.intersect ray with
  | none => cases acc <;> simp
  | some hh =>
    cases acc with
    | none => simp
    | some p =>
      obtain ⟨o0, h0⟩ := p
      by_cases hc : hh.t < h0.t <;> simp [hc]

/-- Helper: a best hit after one loop iteration is either the previous
best hit or the hit of the object just visited. -/
lemma sceneStep_eq_some (ray : Ray) (acc : Option (SceneObject × Hit)) (o : SceneObject)
    (p : SceneObject × Hit) (hp : sceneStep ray acc o = some p) :
    acc = some p ∨ (p.1 = o ∧ o.intersect ray = some p.2) := by
  cases h : o.intersect ray with
  | none =>
    simp only [sceneStep, h] at hp
    exact Or.inl hp
  | some hh =>
    cases acc with
    | none =>
      simp only [sceneStep, h] at hp
      obtain rfl := Option.some.inj hp
      exact Or.inr ⟨rfl, rfl⟩
    | some q =>
      obtain ⟨o0, h0⟩ := q
      simp only [sceneStep, h] at hp
      by_cases hc : hh.t < h0.t
      · rw [if_pos hc] at hp
        obtain rfl := Option.some.inj hp
        exact Or.inr ⟨rfl, rfl⟩
      · rw [if_neg hc] at hp
        exact Or.inl hp

/-- Helper: one loop iteration never loses a best hit and never makes
it farther. -/
lemma sceneStep_le_acc (ray : Ray) (acc : Option (SceneObject × Hit)) (o : SceneObject)
    (q : SceneObject × Hit) (hq : acc = some q) :
    ∃ p, sceneStep ray acc o = some p ∧ p.2.t ≤ q.2.t := by
  subst hq
  cases h : o.intersect ray with
  | none => exact ⟨q, by simp only [sceneStep, h], le_refl _⟩
  | some hh =>
    obtain ⟨o0, h0⟩ := q
    by_cases hc : hh.t < h0.t
    · exact ⟨(o, hh), by simp only [sceneStep, h]; rw [if_pos hc], le_of_lt hc⟩
    · exact ⟨(o0, h0), by simp only [sceneStep, h]; rw [if_neg hc], le_refl _⟩

/-- Helper: after visiting an object that hits the ray, the best hit
exists and is no farther than that hit. -/
lemma sceneStep_le_hit (ray : Ray) (acc : Option (SceneObject × Hit)) (o : SceneObject)
    (hh : Hit) (hhit : o.intersect ray = some hh) :
    ∃ p, sceneStep ray acc o = some p ∧ p.2.t ≤ hh.t := by
  cases acc with
  | none => exact ⟨(o, hh), by simp only [sceneStep, hhit], le_refl _⟩
  | some q =>
    obtain ⟨o0, h0⟩ := q
    by_cases hc : hh.t < h0.t
    · exact ⟨(o, hh), by simp only [sceneStep, hhit]; rw [if_pos hc], le_refl _⟩
    · exact ⟨(o0, h0), by simp only [sceneStep, hhit]; rw [if_neg hc], not_lt.mp hc⟩

/-- Helper: the scene scan misses exactly when the accumulator is
empty and every object misses. -/
lemma sceneFold_none_iff (ray : Ray) (objs : List SceneObject)
    (acc : Option (SceneObject × Hit)) :
    objs.foldl (sceneStep ray) acc = none ↔
      acc = none ∧ ∀ o ∈ objs, o.intersect ray = none := by
  induction objs generalizing acc with
  | nil => simp
  | cons o os ih =>
    rw [List.foldl_cons, ih]
    rw [sceneStep_eq_none_iff]
    constructor
    · rintro ⟨⟨h1, h2⟩, h3⟩
      exact ⟨h1, by simpa [h2] using h3⟩
    · rintro ⟨h1, h2⟩
      refine ⟨⟨h1, h2 o (by simp)⟩, fun o2 ho2 => h2 o2 (by simp [ho2])⟩

/-- Helper: the scene scan keeps a hit that was produced by the
accumulator or by some object in the list, and whose parameter is a
lower bound on the accumulator and on every hit of every object. -/
lemma sceneFold_spec (ray : Ray) (objs : List SceneObject)
    (acc : Option (SceneObject × Hit)) (p : SceneObject × Hit)
    (hp : objs.foldl (sceneStep ray) acc = some p) :
    (acc = some p ∨ (p.1 ∈ objs ∧ p.1.intersect ray = some p.2)) ∧
    (∀ q, acc = some q → p.2.t ≤ q.2.t) ∧
    (∀ o ∈ objs, ∀ hh, o.intersect ray = some hh → p.2.t ≤ hh.t) := by
  induction objs generalizing acc with
  | nil =>
    have hacc : acc = some p := by simpa using hp
    refine ⟨Or.inl hacc, fun q hq => ?_, by simp⟩
    obtain rfl := Option.some.inj (hacc.symm.trans hq)
    exact le_refl _
  | cons o os ih =>
    rw [List.foldl_cons] at hp
    obtain ⟨hmem, hacc, hlist⟩ := ih (sceneStep ray acc o) hp
    refine ⟨?_, ?_, ?_⟩
    · rcases hmem with hstep | ⟨hin, hint⟩
      · rcases sceneStep_eq_some ray acc o p hstep with h1 | ⟨h1, h2⟩
        · exact Or.inl h1
        · exact Or.inr ⟨by simp [h1], by rw [h1]; exact h2⟩
      · exact Or.inr ⟨by simp [hin], hint⟩
    · intro q hq
      obtain ⟨p2, hp2, hle⟩ := sceneStep_le_acc ray acc o q hq
      exact le_trans (hacc p2 hp2) hle
    · intro o2 ho2 hh hhit
      rcases List.mem_cons.mp ho2 with rfl | ho2
      · obtain ⟨p2, hp2, hle⟩ := sceneStep_le_hit ray acc o2 hh hhit
        exact le_trans (hacc p2 hp2) hle
      · exact hlist o2 ho2 hh hhit

/-- Claim C6, amended: intersectRayWithScene returns none exactly when
no primitive intersects the ray (never a sentinel object); a returned
result is the hit of one of the primitives in the scene and its
parameter t is the minimum over all hits of all primitives, so the
minimal parameter does not depend on insertion order; ties between
distinct primitives are broken toward the earlier primitive, so the
returned normal and object can depend on insertion order. -/
theorem scene_nearest_hit (objs : List SceneObject) (ray : Ray) :
    (intersectRayWithScene objs ray = none ↔ ∀ o ∈ objs, o.intersect ray = none) ∧
    (∀ res, intersectRayWithScene objs ray = some res →
      (res.obj ∈ objs ∧ res.obj.intersect ray = some ⟨res.t, res.normal⟩) ∧
      ∀ o ∈ objs, ∀ hh, o.intersect ray = some hh → res.t ≤ hh.t) := by
  constructor
  · unfold intersectRayWithScene
    rw [Option.map_eq_none']
    rw [sceneFold_none_iff]
    simp
  · intro res hres
    unfold intersectRayWithScene at hres
    rw [Option.map_eq_some'] at hres
    obtain ⟨p, hp, hres⟩ := hres
    obtain ⟨hmem, _, hlist⟩ := sceneFold_spec ray objs none p hp
    rcases hmem with h1 | ⟨hin, hint⟩
    · exact absurd h1 (by simp)
    · subst hres
      exact ⟨⟨hin, hint⟩, fun o ho hh hhit => hlist o ho hh hhit⟩

/-- Witness for scene_nearest_hit: in the one-sphere scene the query
returns the sphere hit, whose parameter is a lower bound on that same
hit. -/
theorem scene_nearest_hit_witness :
    (25:ℝ) ≤ 25 ∧ SceneObject.sphere sphereMain ∈ [SceneObject.sphere sphereMain] :=
  ⟨((scene_nearest_hit [SceneObject.sphere sphereMain] rayFromBehind).2
      ⟨25, ⟨0, 0, -1⟩, SceneObject.sphere sphereMain⟩
      (by simp [intersectRayWithScene, sceneStep, SceneObject.intersect, sphereMain_eval])).2
      (SceneObject.sphere sphereMain) (by simp) ⟨25, ⟨0, 0, -1⟩⟩
      (by simpa [SceneObject.intersect] using sphereMain_eval),
   by simp⟩

/-- Claim C6, counterexample: the two overlapping spheres sphereUp and
sphereDown are both entered at t = 6 by rayPlusZ, but with different
surface normals; swapping their insertion order changes the result of
intersectRayWithScene, so the result is not independent of insertion
order. -/
theorem scene_order_dependent :
    intersectRayWithScene [SceneObject.sphere sphereUp, SceneObject.sphere sphereDown]
        rayPlusZ ≠
      intersectRayWithScene [SceneObject.sphere sphereDown, SceneObject.sphere sphereUp]
        rayPlusZ := by
  have h1 : intersectRayWithScene
      [SceneObject.sphere sphereUp, SceneObject.sphere sphereDown] rayPlusZ =
      some ⟨6, ⟨0, -(3/5), -(4/5)⟩, SceneObject.sphere sphereUp⟩ := by
    simp [intersectRayWithScene, sceneStep, SceneObject.intersect,
      sphereUp_eval, sphereDown_eval]
  have h2 : intersectRayWithScene
      [SceneObject.sphere sphereDown, SceneObject.sphere sphereUp] rayPlusZ =
      some ⟨6, ⟨0, 3/5, -(4/5)⟩, SceneObject.sphere sphereDown⟩ := by
    simp [intersectRayWithScene, sceneStep, SceneObject.intersect,
      sphereUp_eval, sphereDown_eval]
  rw [h1, h2]
  intro hcontra
  injection hcontra with h3
  have h4 : (⟨6, ⟨0, -(3/5), -(4/5)⟩, SceneObject.sphere sphereUp⟩ : SceneResult).normal.y =
      (⟨6, ⟨0, 3/5, -(4/5)⟩, SceneObject.sphere sphereDown⟩ : SceneResult).normal.y := by
    rw [h3]
  norm_num at h4

/-- Claim C3, counterexample: Sphere.intersect performs no positivity
check on t, so the unit sphere centered at (0,0,-10), entirely behind
the origin of rayPlusZ, produces a hit with t = -11, and
intersectRayWithScene forwards it: its result does not satisfy
t >= 0. -/
theorem scene_hit_negative_t :
    intersectRayWithScene [SceneObject.sphere sphereBehind] rayPlusZ =
      some ⟨-11, ⟨0, 0, -1⟩, SceneObject.sphere sphereBehind⟩ ∧
    ((-11:ℝ) < 0) := by
  refine ⟨?_, by norm_num⟩
  simp [intersectRayWithScene, sceneStep, SceneObject.intersect, sphereBehind_eval]

/-- Claim C3, amended: any Hit returned by Plane.intersect has t >= 0,
but Sphere.intersect and Box.intersect reject nothing on sign, and
intersectRayWithScene keeps the minimum t among all primitives with no
positivity filter, so a scene result can carry t < 0; what does hold
for the scene query is that the returned t is a lower bound on every
hit of every primitive. -/
theorem plane_nonneg_scene_min :
    (∀ (p : Plane) (ray : Ray) (h : Hit), p.intersect ray = some h → 0 ≤ h.t) ∧
    (∀ (objs : List SceneObject) (ray : Ray) (res : SceneResult),
      intersectRayWithScene objs ray = some res →
      ∀ o ∈ objs, ∀ hh, o.intersect ray = some hh → res.t ≤ hh.t) := by
  constructor
  · intro p ray h hph
    unfold Plane.intersect at hph
    by_cases h1 : |Vector3.dot p.normal ray.direction| < 1e-2
    · rw [if_pos h1] at hph
      exact absurd hph (by simp)
    · rw [if_neg h1] at hph
      dsimp only at hph
      by_cases h2 : -(Vector3.dot p.normal ray.origin - p.offset) /
          Vector3.dot p.normal ray.direction < 0
      · rw [if_pos h2] at hph
        exact absurd hph (by simp)
      · rw [if_neg h2] at hph
        injection hph with h3
        rw [← h3]
        exact not_lt.mp h2
  · intro objs ray res hres
    unfold intersectRayWithScene at hres
    rw [Option.map_eq_some'] at hres
    obtain ⟨p, hp, hres⟩ := hres
    obtain ⟨_, _, hlist⟩ := sceneFold_spec ray objs none p hp
    subst hres
    exact fun o ho hh hhit => hlist o ho hh hhit

/-- Witness for plane_nonneg_scene_min: the floor plane hit at t = 14
is nonnegative, and in the one-plane scene the returned t = 14 is a
lower bound on the plane hit itself. -/
theorem plane_nonneg_scene_min_witness :
    (0:ℝ) ≤ 14 ∧ (14:ℝ) ≤ 14 :=
  ⟨(plane_nonneg_scene_min).1 planeFloor rayDown ⟨14, ⟨0, 1, 0⟩⟩ planeFloor_eval,
   (plane_nonneg_scene_min).2 [SceneObject.plane planeFloor] rayDown
     ⟨14, ⟨0, 1, 0⟩, SceneObject.plane planeFloor⟩
     (by simp [intersectRayWithScene, sceneStep, SceneObject.intersect, planeFloor_eval])
     (SceneObject.plane planeFloor) (by simp) ⟨14, ⟨0, 1, 0⟩⟩
     (by simpa [SceneObject.intersect] using planeFloor_eval)⟩

/-- Claim C1, amended: whenever the shadow ray built for a surface
point hits some primitive, evaluateLight returns an Irradiance whose
lightVisible field holds exactly when the nearest intersection
parameter t satisfies |t - 10000| < 1e-2; but when the shadow ray hits
no primitive, evaluateLight does not degrade to a numeric result: it
reads the t property of an undefined value and throws (modelled by
none). -/
theorem evaluateLight_visibility (objs : List SceneObject) (L : DirectionalLight)
    (pos normal : Vector3) :
    (∀ h, intersectRayWithScene objs (L.shadowRay pos) = some h →
      L.evaluateLight objs pos normal =
        some ⟨L.direction, L.color, |h.t - 10000| < 1e-2⟩) ∧
    (intersectRayWithScene objs (L.shadowRay pos) = none →
      L.evaluateLight objs pos normal = none) := by
  constructor
  · intro h hh
    unfold DirectionalLight.evaluateLight
    rw [hh]
    rfl
  · intro hh
    unfold DirectionalLight.evaluateLight
    rw [hh]

/-- Witness for evaluateLight_visibility: in the one-plane scene the
shadow ray for the point (0,0,0) under the downward light travels
10004 units before hitting the floor plane, so the light is reported
not visible (the visibility proposition is the false comparison
|10004 - 10000| < 1e-2). -/
theorem evaluateLight_visibility_witness :
    DirectionalLight.evaluateLight [SceneObject.plane planeFloor] lightDown
        ⟨0, 0, 0⟩ ⟨0, 1, 0⟩ =
      some ⟨lightDown.direction, lightDown.color, |(10004:ℝ) - 10000| < 1e-2⟩ :=
  (evaluateLight_visibility [SceneObject.plane planeFloor] lightDown ⟨0, 0, 0⟩ ⟨0, 1, 0⟩).1
    ⟨10004, ⟨0, 1, 0⟩, SceneObject.plane planeFloor⟩
    (by
      simp only [intersectRayWithScene, sceneStep, SceneObject.intersect,
        Plane.intersect, DirectionalLight.shadowRay, lightDown, planeFloor,
        Vector3.addMul, Vector3.dot, LIGHT_STEP_SIZE, List.foldl]
      norm_num)

/-- Claim C1, counterexample: with an empty scene the shadow ray hits
no primitive, intersectRayWithScene returns undefined, and
evaluateLight throws a TypeError reading its t property instead of
returning an Irradiance: the evaluation aborts rather than degrading
to a numeric result. -/
theorem evaluateLight_empty_scene_throws :
    DirectionalLight.evaluateLight [] lightDown ⟨0, 0, 0⟩ ⟨0, 1, 0⟩ = none := rfl

/-- Helper: the light iteration with an accumulating closure equals
collecting all irradiances first and folding the closure over them. -/
lemma forEachLight_eq_foldl {α : Type} (objs : List SceneObject)
    (lights : List DirectionalLight) (pos normal : Vector3)
    (closure : α → Irradiance → α) (init : α) :
    forEachLight objs lights pos normal closure init =
      (collectIrradiances objs pos normal lights).map fun irrs =>
        irrs.foldl closure init := by
  induction lights generalizing init with
  | nil => rfl
  | cons L ls ih =>
    cases h : L.evaluateLight objs pos normal with
    | none => simp [forEachLight, collectIrradiances, List.foldlM_cons, h]
    | some irr =>
      have hstep : forEachLight objs (L :: ls) pos normal closure init =
          forEachLight objs ls pos normal closure (closure init irr) := by
        simp [forEachLight, List.foldlM_cons, h]
      rw [hstep, ih]
      simp only [collectIrradiances, h]
      cases hrest : collectIrradiances objs pos normal ls <;> simp [hrest]

/-- Helper: folding a pair of independent accumulators equals the pair
of the two separate folds. -/
lemma foldl_pair_split (irrs : List Irradiance) (f g : Irradiance → Vector3)
    (a b : Vector3) :
    irrs.foldl (fun acc irr => (Vector3.add acc.1 (f irr), Vector3.add acc.2 (g irr)))
        (a, b) =
      (irrs.foldl (fun acc irr => Vector3.add acc (f irr)) a,
       irrs.foldl (fun acc irr => Vector3.add acc (g irr)) b) := by
  induction irrs generalizing a b with
  | nil => rfl
  | cons irr irrs ih =>
    simp only [List.foldl_cons]
    exact ih _ _

/-- Claim C2, amended: SpecularMaterial.evaluate returns exactly the
per-light sum of the wrapped diffuse radiance plus the per-light sum of
the Phong specular radiance, with no ambient contribution, while the
wrapped DiffuseMaterial.evaluate on its own would add the ambient term
ambientColor componentwise-times materialColor once; the ambient term
is therefore omitted from the specular result, not included exactly
once. -/
theorem specular_evaluate_sums (objs : List SceneObject)
    (lights : List DirectionalLight) (m : SpecularMaterial) (ctx : ShadeContext) :
    (SpecularMaterial.evaluate objs lights m ctx =
      (collectIrradiances objs (ctx.ray.pointOnRay ctx.t) ctx.normal lights).map
        fun irrs =>
          Vector3.add
            (sumColors (fun irr => m.diffuseMaterial.evaluateRadiance irr
              (ctx.ray.pointOnRay ctx.t) ctx.normal) irrs)
            (sumColors (fun irr => m.evaluateRadiance irr
              (ctx.ray.pointOnRay ctx.t) ctx.normal ctx) irrs)) ∧
    (DiffuseMaterial.evaluate objs lights m.diffuseMaterial ctx =
      (collectIrradiances objs (ctx.ray.pointOnRay ctx.t) ctx.normal lights).map
        fun irrs =>
          Vector3.add
            (sumColors (fun irr => m.diffuseMaterial.evaluateRadiance irr
              (ctx.ray.pointOnRay ctx.t) ctx.normal) irrs)
            (Vector3.componentScale m.diffuseMaterial.ambientColor
              m.diffuseMaterial.color)) := by
  constructor
  · unfold SpecularMaterial.evaluate
    dsimp only
    rw [forEachLight_eq_foldl]
    cases h : collectIrradiances objs (ctx.ray.pointOnRay ctx.t) ctx.normal lights with
    | none => simp [h]
    | some irrs => simp [h, foldl_pair_split, sumColors]
  · unfold DiffuseMaterial.evaluate
    dsimp only
    rw [forEachLight_eq_foldl]
    cases h : collectIrradiances objs (ctx.ray.pointOnRay ctx.t) ctx.normal lights with
    | none => simp [h]
    | some irrs => simp [h, sumColors]

/-- Claim C2, counterexample: with no lights registered, both per-light
sums are black, so the claimed final color (diffuse sum plus specular
sum plus ambient term exactly once) is the ambient term (1,1,1) of the
specMat fixture; the code returns (0,0,0) instead, omitting the
ambient term of the wrapped diffuse material. -/
theorem specular_evaluate_omits_ambient :
    SpecularMaterial.evaluate [] [] specMat ctxMain = some ⟨0, 0, 0⟩ ∧
    Vector3.componentScale specMat.diffuseMaterial.ambientColor
      specMat.diffuseMaterial.color = ⟨1, 1, 1⟩ ∧
    (⟨0, 0, 0⟩ : Vector3) ≠ Vector3.add (Vector3.add ⟨0, 0, 0⟩ ⟨0, 0, 0⟩)
      (Vector3.componentScale specMat.diffuseMaterial.ambientColor
        specMat.diffuseMaterial.color) := by
  refine ⟨?_, ?_, ?_⟩
  · simp only [SpecularMaterial.evaluate, forEachLight, List.foldlM_nil]
    simp [Vector3.add]
  · simp [specMat, Vector3.componentScale]
  · simp only [specMat, Vector3.componentScale, Vector3.add]
    intro hcontra
    injection hcontra with hx
    norm_num at hx

/-- Helper: addMul with factor 0 is the identity. -/
lemma addMul_zero (v c : Vector3) : Vector3.addMul v c 0 = v := by
  cases v
  simp [Vector3.addMul]

/-- Helper: addMul with factor 1 starting from black is the color
itself. -/
lemma addMul_black_one (c : Vector3) : Vector3.addMul ⟨0, 0, 0⟩ c 1 = c := by
  cases c
  simp [Vector3.addMul]

/-- Helper: two scaled additions of the same color merge. -/
lemma addMul_addMul (v c : Vector3) (a b : ℝ) :
    Vector3.addMul (Vector3.addMul v c a) c b = Vector3.addMul v c (a + b) := by
  cases v
  cases c
  simp only [Vector3.addMul, Vector3.mk.injEq]
  refine ⟨by ring, by ring, by ring⟩

/-- Helper: next preserves the sample count and the accumulator
reference, so iterated stepping does too. -/
lemma iterateNext_fields (k : ℕ) (s : Sampler) :
    (iterateNext k s).numSamples = s.numSamples ∧
    (iterateNext k s).colorAccumulator = s.colorAccumulator := by
  induction k generalizing s with
  | zero => exact ⟨rfl, rfl⟩
  | succ k ih =>
    have hstep : ((s.next).2.numSamples = s.numSamples) ∧
        ((s.next).2.colorAccumulator = s.colorAccumulator) := by
      unfold Sampler.next
      by_cases h : s.remainingSamples ≤ 0
      · rw [if_pos h]
        exact ⟨rfl, rfl⟩
      · rw [if_neg h]
        exact ⟨rfl, rfl⟩
    obtain ⟨h1, h2⟩ := ih (s.next).2
    exact ⟨h1.trans hstep.1, h2.trans hstep.2⟩

/-- Helper: as long as samples remain, each next decrements the
remaining count by one. -/
lemma iterateNext_remaining (k : ℕ) (s : Sampler) (hk : k ≤ s.remainingSamples) :
    (iterateNext k s).remainingSamples = s.remainingSamples - k := by
  induction k generalizing s with
  | zero => simp [iterateNext]
  | succ k ih =>
    have hpos : ¬ s.remainingSamples ≤ 0 := by omega
    have hstep : (s.next).2 = { s with remainingSamples := s.remainingSamples - 1,
                                        sampleWeight := some (1 / (s.numSamples : ℝ)) } := by
      unfold Sampler.next
      rw [if_neg hpos]
    show (iterateNext k (s.next).2).remainingSamples = s.remainingSamples - (k + 1)
    rw [hstep, ih _ (by simp; omega)]
    show s.remainingSamples - 1 - k = s.remainingSamples - (k + 1)
    omega

/-- Helper: after at least one next with samples remaining, the weight
is fixed to 1/numSamples. -/
lemma iterateNext_weight (k : ℕ) (s : Sampler) (h1 : 1 ≤ k)
    (hk : k ≤ s.remainingSamples) :
    (iterateNext k s).sampleWeight = some (1 / (s.numSamples : ℝ)) := by
  induction k generalizing s with
  | zero => omega
  | succ k ih =>
    have hpos : ¬ s.remainingSamples ≤ 0 := by omega
    have hstep : (s.next).2 = { s with remainingSamples := s.remainingSamples - 1,
                                        sampleWeight := some (1 / (s.numSamples : ℝ)) } := by
      unfold Sampler.next
      rw [if_neg hpos]
    show (iterateNext k (s.next).2).sampleWeight = some (1 / (s.numSamples : ℝ))
    by_cases hk0 : k = 0
    · subst hk0
      rw [hstep]
      rfl
    · have := ih (s.next).2 (by omega)
      rw [hstep] at this ⊢
      exact this (by simp; omega)

/-- Helper: the per-pixel loop of k next/accumulate rounds, run while
at least k samples remain, succeeds and adds color scaled by
k/numSamples into the accumulator cell, leaving every other cell
unchanged. -/
lemma samplePass_spec (C : Vector3) : ∀ (k : ℕ) (s : Sampler) (st : Store),
    k ≤ s.remainingSamples →
    samplePass k C s st = some (iterateNext k s,
      st.write s.colorAccumulator
        (Vector3.addMul (st s.colorAccumulator) C ((k : ℝ) * (1 / (s.numSamples : ℝ))))) := by
  intro k
  induction k with
  | zero =>
    intro s st _
    show some (s, st) = _
    rw [Nat.cast_zero, zero_mul, addMul_zero]
    rw [show st.write s.colorAccumulator (st s.colorAccumulator) = st from
      Function.update_eq_self s.colorAccumulator st]
    rfl
  | succ k ih =>
    intro s st hk
    have hpos : ¬ s.remainingSamples ≤ 0 := by omega
    have hstep : (s.next).2 = { s with remainingSamples := s.remainingSamples - 1,
                                        sampleWeight := some (1 / (s.numSamples : ℝ)) } := by
      unfold Sampler.next
      rw [if_neg hpos]
    have hrem2 : (s.next).2.remainingSamples = s.remainingSamples - 1 := by rw [hstep]
    have hnum2 : (s.next).2.numSamples = s.numSamples := by rw [hstep]
    have hacc2 : (s.next).2.colorAccumulator = s.colorAccumulator := by rw [hstep]
    have hwt2 : (s.next).2.sampleWeight = some (1 / (s.numSamples : ℝ)) := by rw [hstep]
    have haccum : ((s.next).2).accumulateSample C st =
        some (Store.write st s.colorAccumulator
          (Vector3.addMul (st s.colorAccumulator) C (1 / (s.numSamples : ℝ)))) := by
      unfold Sampler.accumulateSample
      rw [hwt2, hacc2]
      rfl
    have step1 : samplePass (k + 1) C s st = samplePass k C (s.next).2
        (Store.write st s.colorAccumulator
          (Vector3.addMul (st s.colorAccumulator) C (1 / (s.numSamples : ℝ)))) := by
      show (match ((s.next).2).accumulateSample C st with
        | none => none
        | some st2 => samplePass k C (s.next).2 st2) = _
      rw [haccum]
    rw [step1, ih _ _ (by rw [hrem2]; omega)]
    rw [hacc2, hnum2]
    unfold Store.write
    rw [Function.update_same, Function.update_idem, addMul_addMul]
    have harg : (1 / (s.numSamples : ℝ)) + (k : ℝ) * (1 / (s.numSamples : ℝ)) =
        (((k + 1 : ℕ) : ℝ)) * (1 / (s.numSamples : ℝ)) := by push_cast; ring
    rw [harg]
    rfl

/-- Claim C8: for a sampler holding N >= 1 samples, after reset each of
the first N calls to next returns the sample offset (0,0) and fixes the
weight to 1/N, the call after the N-th returns undefined, and running
the renderer loop of N next/accumulate rounds with a constant color C
leaves exactly C in the accumulator cell that result refers to (the
weights 1/N sum to 1).  In this embedding result is a pure read of the
accumulator reference, so it cannot reset the accumulator; the cell is
cleared only by an explicit reset. -/
theorem sampler_iteration_contract (N : ℕ) (hN : 1 ≤ N) (s : Sampler) (st : Store)
    (hnum : s.numSamples = N) (C : Vector3) :
    (∀ k, k < N → ((iterateNext k (s.reset st).1).next).1 = some ⟨0, 0⟩ ∧
      ((iterateNext k (s.reset st).1).next).2.sampleWeight = some (1 / (N : ℝ))) ∧
    ((iterateNext N (s.reset st).1).next).1 = none ∧
    samplePass N C (s.reset st).1 (s.reset st).2 =
      some (iterateNext N (s.reset st).1,
        ((s.reset st).2).write s.colorAccumulator C) ∧
    (((s.reset st).2).write s.colorAccumulator C) ((iterateNext N (s.reset st).1).result) = C := by
  have hres1 : (s.reset st).1 = { s with remainingSamples := s.numSamples } := rfl
  have hrem : (s.reset st).1.remainingSamples = N := by rw [hres1, hnum]
  have hnum2 : (s.reset st).1.numSamples = s.numSamples := rfl
  have hacc : (s.reset st).1.colorAccumulator = s.colorAccumulator := rfl
  refine ⟨?_, ?_, ?_, ?_⟩
  · intro k hk
    have hrem2 : (iterateNext k (s.reset st).1).remainingSamples = N - k := by
      rw [iterateNext_remaining _ _ (by omega : k ≤ (s.reset st).1.remainingSamples), hrem]
    have hpos : ¬ (iterateNext k (s.reset st).1).remainingSamples ≤ 0 := by omega
    constructor
    · unfold Sampler.next
      rw [if_neg hpos]
    · unfold Sampler.next
      rw [if_neg hpos]
      have := (iterateNext_fields k (s.reset st).1).1
      rw [hnum2] at this
      simp only [this, hnum]
  · have hrem2 : (iterateNext N (s.reset st).1).remainingSamples = 0 := by
      rw [iterateNext_remaining _ _ (by omega : N ≤ (s.reset st).1.remainingSamples), hrem]
      omega
    unfold Sampler.next
    rw [if_pos (by omega)]
  · rw [samplePass_spec C N _ _ (by omega)]
    have hcell : ((s.reset st).2) ((s.reset st).1.colorAccumulator) = ⟨0, 0, 0⟩ := by
      rw [hacc]
      show (st.write s.colorAccumulator ⟨0, 0, 0⟩) s.colorAccumulator = _
      unfold Store.write
      rw [Function.update_same]
    rw [hcell, hacc, hnum2, hnum]
    have hNnz : ((N : ℝ)) * (1 / (N : ℝ)) = 1 := by
      have : (N : ℝ) ≠ 0 := by
        simp only [ne_eq, Nat.cast_eq_zero]
        omega
      field_simp
    rw [hNnz, addMul_black_one]
  · have hacc2 : (iterateNext N (s.reset st).1).result = s.colorAccumulator := by
      unfold Sampler.result
      rw [(iterateNext_fields N (s.reset st).1).2, hacc]
    rw [hacc2]
    unfold Store.write
    rw [Function.update_same]

/-- Witness for sampler_iteration_contract: the two-sample sampler
after reset answers its first next call with the offset (0,0) and
weight one half. -/
theorem sampler_iteration_contract_witness :
    ((iterateNext 0 (samplerTwo.reset storeInit).1).next).1 = some ⟨0, 0⟩ ∧
    ((iterateNext 0 (samplerTwo.reset storeInit).1).next).2.sampleWeight =
      some (1 / ((2 : ℕ) : ℝ)) :=
  (sampler_iteration_contract 2 (by norm_num) samplerTwo storeInit rfl ⟨1, 2, 3⟩).1
    0 (by norm_num)

/-- Claim C10: result returns the accumulator reference itself, not a
copy: a later reset writes (0,0,0) into the very cell that reference
names, a later accumulateSample adds color times weight into that same
cell in place, and whenever the cell held a nonzero color, the color
read through a previously obtained result reference changes once the
sampler is reset for the next pixel. -/
theorem result_is_reference (s : Sampler) (st : Store) :
    s.result = s.colorAccumulator ∧
    ((s.reset st).2) (s.result) = ⟨0, 0, 0⟩ ∧
    (∀ c w st2, s.sampleWeight = some w → s.accumulateSample c st = some st2 →
      st2 (s.result) = Vector3.addMul (st (s.result)) c w) ∧
    (st (s.result) ≠ ⟨0, 0, 0⟩ → ((s.reset st).2) (s.result) ≠ st (s.result)) := by
  have hzero : ((s.reset st).2) (s.result) = ⟨0, 0, 0⟩ := by
    show (st.write s.colorAccumulator ⟨0, 0, 0⟩) s.colorAccumulator = _
    unfold Store.write
    rw [Function.update_same]
  refine ⟨rfl, hzero, ?_, ?_⟩
  · intro c w st2 hw hst2
    unfold Sampler.accumulateSample at hst2
    rw [hw] at hst2
    simp only [Option.map_some'] at hst2
    obtain rfl := Option.some.inj hst2.symm
    show (st.write s.colorAccumulator _) s.colorAccumulator = _
    unfold Store.write
    rw [Function.update_same]
    rfl
  · intro hne
    rw [hzero]
    exact fun hcontra => hne hcontra.symm

/-- Witness for result_is_reference: with every cell of the store
holding (1,2,3), resetting the sampler changes the color read through
the reference that result returned. -/
theorem result_is_reference_witness :
    ((samplerTwo.reset storeInit).2) (samplerTwo.result) ≠
      storeInit (samplerTwo.result) :=
  (result_is_reference samplerTwo storeInit).2.2.2
    (by
      intro hcontra
      have hx : (storeInit samplerTwo.result).x = (0:ℝ) := by rw [hcontra]
      norm_num [storeInit] at hx)

/-- Claim C9: for every unit-length vector n and every vector v,
reflect(v,n) satisfies dot(reflect(v,n), n) = -dot(v,n) and
|reflect(v,n)| = |v|. -/
theorem reflect_dot_length (v n : Vector3) (h : n.length = 1) :
    Vector3.dot (Vector3.reflect v n) n = -(Vector3.dot v n) ∧
    (Vector3.reflect v n).length = v.length := by
  have h0 : (0:ℝ) ≤ n.x * n.x + n.y * n.y + n.z * n.z := by
    nlinarith [mul_self_nonneg n.x, mul_self_nonneg n.y, mul_self_nonneg n.z]
  have hn : n.x * n.x + n.y * n.y + n.z * n.z = 1 := by
    have hs := Real.sq_sqrt h0
    unfold Vector3.length at h
    rw [h] at hs
    linarith [hs]
  constructor
  · simp only [Vector3.reflect, Vector3.subtract, Vector3.scale, Vector3.dot]
    linear_combination (-(2:ℝ) * (v.x * n.x + v.y * n.y + v.z * n.z)) * hn
  · simp only [Vector3.reflect, Vector3.subtract, Vector3.scale, Vector3.dot, Vector3.length]
    congr 1
    linear_combination ((4:ℝ) * (v.x * n.x + v.y * n.y + v.z * n.z) ^ 2) * hn

/-- Witness for reflect_dot_length at v = (3,4,12) and the unit normal
n = (0,0,1). -/
theorem reflect_dot_length_witness :
    Vector3.dot (Vector3.reflect ⟨3, 4, 12⟩ ⟨0, 0, 1⟩) ⟨0, 0, 1⟩ =
      -(Vector3.dot ⟨3, 4, 12⟩ ⟨0, 0, 1⟩) ∧
    (Vector3.reflect ⟨3, 4, 12⟩ ⟨0, 0, 1⟩).length = (Vector3.mk 3 4 12).length :=
  reflect_dot_length ⟨3, 4, 12⟩ ⟨0, 0, 1⟩
    (by unfold Vector3.length; norm_num)

end Raytracer
